import Mathlib

/-!
Verification of the vispy scene-graph renderer core (scene/canvas.py,
visuals/visual.py, visuals/ellipse.py) against its natural-language
specification.

The Python code is shallowly embedded: each relevant method is translated
into an executable Lean definition over explicit state, and the spec's
testable properties are proved (or refuted) about those definitions.
-/

namespace Vispy

/-! ## Scene-graph nodes

`SceneCanvas._generate_draw_order` and `SceneCanvas.draw_visual` consume only
the node-tree shape: the ordered `children` sequence, the `visible` flag, the
presence of a `draw` method (the Python code tests `hasattr(node, 'draw')`),
and object identity (the Python loop compares `node is invisible_node`).
`SceneNode` records exactly those observables; `id` stands for the object
identity of the Python node (distinct objects carry distinct ids).
-/

inductive SceneNode where
  | mk (id : Nat) (visible : Bool) (hasDraw : Bool) (children : List SceneNode)

def SceneNode.nid : SceneNode → Nat
  | .mk i _ _ _ => i

def SceneNode.visible : SceneNode → Bool
  | .mk _ v _ _ => v

def SceneNode.hasDraw : SceneNode → Bool
  | .mk _ _ d _ => d

def SceneNode.children : SceneNode → List SceneNode
  | .mk _ _ _ cs => cs

mutual
def SceneNode.beq : SceneNode → SceneNode → Bool
  | .mk i v d cs, .mk i' v' d' cs' => i == i' && v == v' && d == d' && SceneNode.beqList cs cs'

def SceneNode.beqList : List SceneNode → List SceneNode → Bool
  | [], [] => true
  | c :: cs, c' :: cs' => SceneNode.beq c c' && SceneNode.beqList cs cs'
  | _, _ => false
end

mutual
theorem SceneNode.beq_iff : ∀ t t', SceneNode.beq t t' = true ↔ t = t'
  | .mk i v d cs, .mk i' v' d' cs' => by
    simp [SceneNode.beq, SceneNode.beqList_iff cs cs', and_assoc]

theorem SceneNode.beqList_iff : ∀ cs cs', SceneNode.beqList cs cs' = true ↔ cs = cs'
  | [], [] => by simp [SceneNode.beqList]
  | [], _ :: _ => by simp [SceneNode.beqList]
  | _ :: _, [] => by simp [SceneNode.beqList]
  | c :: cs, c' :: cs' => by
    simp [SceneNode.beqList, SceneNode.beq_iff c c', SceneNode.beqList_iff cs cs']
end

instance : DecidableEq SceneNode := fun t t' => decidable_of_iff _ (SceneNode.beq_iff t t')

mutual
/-- The nodes of a tree, root first (preorder); `nodesOfForest` is the
version for a `children` list. -/
def nodesOf : SceneNode → List SceneNode
  | .mk i v d cs => SceneNode.mk i v d cs :: nodesOfForest cs

def nodesOfForest : List SceneNode → List SceneNode
  | [] => []
  | c :: cs => nodesOf c ++ nodesOfForest cs
end

/-- The identities of all nodes of a tree. -/
def idsOf (t : SceneNode) : List Nat := (nodesOf t).map SceneNode.nid

mutual
/-- SceneCanvas._generate_draw_order (canvas.py lines 276-288):
builds the list with one `(node, True)` entry, then (recursively, via the
`for ch in node.children` loop embodied by `generate_draw_order_forest`)
the entries of every child, then one `(node, False)` entry. -/
def generate_draw_order : SceneNode → List (SceneNode × Bool)
  | .mk i v d cs =>
    (SceneNode.mk i v d cs, true) ::
      generate_draw_order_forest cs ++ [(SceneNode.mk i v d cs, false)]

def generate_draw_order_forest : List SceneNode → List (SceneNode × Bool)
  | [] => []
  | c :: cs => generate_draw_order c ++ generate_draw_order_forest cs
end

/-- The loop state of SceneCanvas.draw_visual (canvas.py lines 259-260):
`stack` is the list of currently open nodes (Python appends at the end, the
embedding keeps the top at the head), `invisible_node` the barrier, and
`draws` the identities of nodes whose `draw()` was called, in call order. -/
structure DrawState where
  stack : List SceneNode
  invisible_node : Option SceneNode
  draws : List Nat
deriving DecidableEq

/-- One iteration of the `for node, start in order` loop of
SceneCanvas.draw_visual (canvas.py lines 261-274). -/
def draw_step (s : DrawState) (entry : SceneNode × Bool) : DrawState :=
  let node := entry.1
  if entry.2 then
    -- stack.append(node)
    let s' : DrawState := { s with stack := node :: s.stack }
    match s.invisible_node with
    | some _ => s'
    | none =>
      if node.visible then
        if node.hasDraw then { s' with draws := s'.draws ++ [node.nid] } else s'
      else
        -- disable drawing until we exit this node's subtree
        { s' with invisible_node := some node }
  else
    -- if node is invisible_node: invisible_node = None; then stack.pop()
    let s' : DrawState :=
      if s.invisible_node = some node then { s with invisible_node := none } else s
    { s' with stack := s'.stack.tail }

/-- The whole draw loop of SceneCanvas.draw_visual, run over a draw order. -/
def draw_loop (order : List (SceneNode × Bool)) : DrawState :=
  order.foldl draw_step ⟨[], none, []⟩

/-- SceneCanvas.draw_visual (canvas.py lines 237-274).  Before the loop the
method evaluates `order[2][0].transforms.get_transform()` (line 256, the
result `tr` is never used); indexing `order[2]` raises IndexError when the
draw order has fewer than three entries, which the embedding renders as
`none`.  Otherwise the loop runs and the draw calls are returned. -/
def draw_visual (t : SceneNode) : Option (List Nat) :=
  let order := generate_draw_order t
  match order[2]? with
  | none => none
  | some _ => some (draw_loop order).draws

mutual
/-- Specification-side characterization of the draw calls (spec section 8,
invisibility propagation): a node contributes its own draw (when visible and
drawable) followed by its children's draws, and an invisible node suppresses
its whole subtree. -/
def visible_draws : SceneNode → List Nat
  | .mk i v d cs =>
    if v then (if d then [i] else []) ++ visible_draws_forest cs else []

def visible_draws_forest : List SceneNode → List Nat
  | [] => []
  | c :: cs => visible_draws c ++ visible_draws_forest cs
end

/-! ## Structural lemmas about the traversal -/

theorem self_mem_nodesOf (t : SceneNode) : t ∈ nodesOf t := by
  cases t; simp [nodesOf]

mutual
theorem nodesOf_length_le : ∀ (t n : SceneNode), n ∈ nodesOf t →
    (nodesOf n).length ≤ (nodesOf t).length
  | .mk i v d cs, n, h => by
    rw [nodesOf] at h ⊢
    rcases List.mem_cons.mp h with rfl | h'
    · exact Nat.le_refl _
    · exact Nat.le_trans (nodesOfForest_length_le cs n h') (by simp)

theorem nodesOfForest_length_le : ∀ (cs : List SceneNode) (n : SceneNode),
    n ∈ nodesOfForest cs → (nodesOf n).length ≤ (nodesOfForest cs).length
  | c :: cs, n, h => by
    rw [nodesOfForest] at h ⊢
    rcases List.mem_append.mp h with h' | h'
    · exact Nat.le_trans (nodesOf_length_le c n h') (by simp)
    · exact Nat.le_trans (nodesOfForest_length_le cs n h') (by simp)
end

/-- No node of a forest is the node whose children list the forest is:
a strict subtree is strictly smaller. -/
theorem mem_forest_ne (cs : List SceneNode) (i : Nat) (v d : Bool) :
    ∀ n ∈ nodesOfForest cs, n ≠ SceneNode.mk i v d cs := by
  intro n hn heq
  have h1 := nodesOfForest_length_le cs n hn
  rw [heq, nodesOf] at h1
  simp at h1

mutual
theorem count_generate_draw_order : ∀ (t n : SceneNode) (b : Bool),
    (generate_draw_order t).count (n, b) = (nodesOf t).count n
  | .mk i v d cs, n, b => by
    rw [generate_draw_order, nodesOf]
    rcases eq_or_ne n (SceneNode.mk i v d cs) with rfl | hne
    · cases b <;>
        simp [List.count_cons, List.count_append, count_generate_draw_order_forest cs]
    · cases b <;>
        simp [List.count_cons, List.count_append, count_generate_draw_order_forest cs, hne]

theorem count_generate_draw_order_forest : ∀ (cs : List SceneNode) (n : SceneNode) (b : Bool),
    (generate_draw_order_forest cs).count (n, b) = (nodesOfForest cs).count n
  | [], n, b => by simp [generate_draw_order_forest, nodesOfForest]
  | c :: cs, n, b => by
    rw [generate_draw_order_forest, nodesOfForest]
    simp [List.count_append, count_generate_draw_order c,
      count_generate_draw_order_forest cs]
end

mutual
theorem infix_generate_draw_order : ∀ (t n : SceneNode), n ∈ nodesOf t →
    generate_draw_order n <:+: generate_draw_order t
  | .mk i v d cs, n, h => by
    rw [nodesOf] at h
    rcases List.mem_cons.mp h with rfl | h'
    · exact List.infix_refl _
    · refine (infix_generate_draw_order_forest cs n h').trans ?_
      exact ⟨[(SceneNode.mk i v d cs, true)], [(SceneNode.mk i v d cs, false)],
        by simp [generate_draw_order]⟩

theorem infix_generate_draw_order_forest : ∀ (cs : List SceneNode) (n : SceneNode),
    n ∈ nodesOfForest cs → generate_draw_order n <:+: generate_draw_order_forest cs
  | c :: cs, n, h => by
    rw [nodesOfForest] at h
    rcases List.mem_append.mp h with h' | h'
    · refine (infix_generate_draw_order c n h').trans ?_
      exact ⟨[], generate_draw_order_forest cs, by simp [generate_draw_order_forest]⟩
    · refine (infix_generate_draw_order_forest cs n h').trans ?_
      exact ⟨generate_draw_order c, [], by simp [generate_draw_order_forest]⟩
end

mutual
theorem length_generate_draw_order : ∀ t : SceneNode,
    (generate_draw_order t).length = 2 * (nodesOf t).length
  | .mk i v d cs => by
    rw [generate_draw_order, nodesOf]
    simp [length_generate_draw_order_forest cs]
    omega

theorem length_generate_draw_order_forest : ∀ cs : List SceneNode,
    (generate_draw_order_forest cs).length = 2 * (nodesOfForest cs).length
  | [] => by simp [generate_draw_order_forest, nodesOfForest]
  | c :: cs => by
    rw [generate_draw_order_forest, nodesOfForest]
    simp [length_generate_draw_order c, length_generate_draw_order_forest cs]
    omega
end

/-! ## The draw loop, one step at a time -/

theorem draw_step_enter_barrier (stk : List SceneNode) (ds : List Nat)
    (m node : SceneNode) :
    draw_step ⟨stk, some m, ds⟩ (node, true) = ⟨node :: stk, some m, ds⟩ := by
  simp [draw_step]

theorem draw_step_enter_clear (stk : List SceneNode) (ds : List Nat) (node : SceneNode) :
    draw_step ⟨stk, none, ds⟩ (node, true) =
      if node.visible then
        (if node.hasDraw then ⟨node :: stk, none, ds ++ [node.nid]⟩
         else ⟨node :: stk, none, ds⟩)
      else ⟨node :: stk, some node, ds⟩ := by
  simp only [draw_step]
  split <;> split <;> simp_all

theorem draw_step_exit (stk : List SceneNode) (ds : List Nat)
    (inv : Option SceneNode) (node : SceneNode) :
    draw_step ⟨stk, inv, ds⟩ (node, false) =
      ⟨stk.tail, if inv = some node then none else inv, ds⟩ := by
  by_cases h : inv = some node <;> simp [draw_step, h]

mutual
theorem draw_loop_skip : ∀ (t : SceneNode) (stk : List SceneNode) (ds : List Nat)
    (m : SceneNode), (∀ n ∈ nodesOf t, n ≠ m) →
    (generate_draw_order t).foldl draw_step ⟨stk, some m, ds⟩ = ⟨stk, some m, ds⟩
  | .mk i v d cs, stk, ds, m, hm => by
    have hm' : ∀ n ∈ nodesOfForest cs, n ≠ m := by
      intro n hn
      exact hm n (by rw [nodesOf]; exact List.mem_cons_of_mem _ hn)
    have hne : SceneNode.mk i v d cs ≠ m := hm _ (self_mem_nodesOf _)
    rw [generate_draw_order, List.cons_append, List.foldl_cons,
      draw_step_enter_barrier, List.foldl_append,
      draw_loop_skip_forest cs (SceneNode.mk i v d cs :: stk) ds m hm',
      List.foldl_cons, List.foldl_nil, draw_step_exit]
    simp [Ne.symm hne]

theorem draw_loop_skip_forest : ∀ (cs : List SceneNode) (stk : List SceneNode)
    (ds : List Nat) (m : SceneNode), (∀ n ∈ nodesOfForest cs, n ≠ m) →
    (generate_draw_order_forest cs).foldl draw_step ⟨stk, some m, ds⟩ = ⟨stk, some m, ds⟩
  | [], stk, ds, m, _ => by
    rw [generate_draw_order_forest, List.foldl_nil]
  | c :: cs, stk, ds, m, hm => by
    rw [generate_draw_order_forest, List.foldl_append,
      draw_loop_skip c stk ds m
        (fun n hn => hm n (by rw [nodesOfForest]; exact List.mem_append_left _ hn)),
      draw_loop_skip_forest cs stk ds m
        (fun n hn => hm n (by rw [nodesOfForest]; exact List.mem_append_right _ hn))]
end

mutual
theorem draw_loop_draws : ∀ (t : SceneNode) (stk : List SceneNode) (ds : List Nat),
    (generate_draw_order t).foldl draw_step ⟨stk, none, ds⟩ =
      ⟨stk, none, ds ++ visible_draws t⟩
  | .mk i v d cs, stk, ds => by
    rw [generate_draw_order, List.cons_append, List.foldl_cons,
      draw_step_enter_clear, visible_draws]
    cases hv : v <;> cases hd : d <;>
      simp only [SceneNode.visible, SceneNode.hasDraw, SceneNode.nid,
        if_true, if_false, Bool.false_eq_true, ite_true, ite_false]
    · -- invisible node: the barrier suppresses the whole subtree
      rw [List.foldl_append,
        draw_loop_skip_forest cs _ ds _ (mem_forest_ne cs i false false),
        List.foldl_cons, List.foldl_nil, draw_step_exit]
      simp
    · rw [List.foldl_append,
        draw_loop_skip_forest cs _ ds _ (mem_forest_ne cs i false true),
        List.foldl_cons, List.foldl_nil, draw_step_exit]
      simp
    · rw [List.foldl_append, draw_loop_draws_forest cs _ ds, List.foldl_cons,
        List.foldl_nil, draw_step_exit]
      simp
    · rw [List.foldl_append, draw_loop_draws_forest cs _ (ds ++ [i]),
        List.foldl_cons, List.foldl_nil, draw_step_exit]
      simp

theorem draw_loop_draws_forest : ∀ (cs : List SceneNode) (stk : List SceneNode)
    (ds : List Nat),
    (generate_draw_order_forest cs).foldl draw_step ⟨stk, none, ds⟩ =
      ⟨stk, none, ds ++ visible_draws_forest cs⟩
  | [], stk, ds => by
    rw [generate_draw_order_forest, List.foldl_nil, visible_draws_forest]
    simp
  | c :: cs, stk, ds => by
    rw [generate_draw_order_forest, List.foldl_append, draw_loop_draws c stk ds,
      draw_loop_draws_forest cs stk (ds ++ visible_draws c), visible_draws_forest]
    simp
end

mutual
theorem visible_draws_sublist : ∀ t : SceneNode,
    List.Sublist (visible_draws t) ((nodesOf t).map SceneNode.nid)
  | .mk i v d cs => by
    rw [visible_draws, nodesOf]
    have hf := visible_draws_forest_sublist cs
    cases v
    · simp
    · cases d
      · simpa [SceneNode.nid] using hf.cons i
      · simpa [SceneNode.nid] using hf.cons₂ i

theorem visible_draws_forest_sublist : ∀ cs : List SceneNode,
    List.Sublist (visible_draws_forest cs) ((nodesOfForest cs).map SceneNode.nid)
  | [] => by simp [visible_draws_forest, nodesOfForest]
  | c :: cs => by
    rw [visible_draws_forest, nodesOfForest, List.map_append]
    exact (visible_draws_sublist c).append (visible_draws_forest_sublist cs)
end

/-! ## Sample trees for the concrete-instance checks -/

/-- A root-only tree (the edge case of spec section 4.2). -/
def sampleLeaf : SceneNode := .mk 7 true true []

/-- The scenario tree of spec section 8: Root with children A (visible) and
B (invisible, with visible child C). -/
def sampleTree : SceneNode :=
  .mk 0 true true [.mk 1 true true [], .mk 2 false true [.mk 3 true true []]]

/-! ## Claims about the traversal -/

/-- C1: for a scene tree with distinct node identities, the draw order built
by _generate_draw_order contains exactly one enter entry `(n, True)` and one
exit entry `(n, False)` for every node `n` of the tree, and the entries nest:
the segment belonging to `n` — its enter entry, followed by its children's
enter/exit pairs, followed immediately by its exit entry — occurs contiguously
inside the whole order. -/
theorem generate_draw_order_spec (t n : SceneNode)
    (hnodup : (idsOf t).Nodup) (hn : n ∈ nodesOf t) :
    (generate_draw_order t).count (n, true) = 1 ∧
    (generate_draw_order t).count (n, false) = 1 ∧
    generate_draw_order n <:+: generate_draw_order t ∧
    generate_draw_order n =
      (n, true) :: generate_draw_order_forest n.children ++ [(n, false)] := by
  have hnd : (nodesOf t).Nodup := List.Nodup.of_map _ hnodup
  have hc := List.count_eq_one_of_mem hnd hn
  refine ⟨?_, ?_, infix_generate_draw_order t n hn, ?_⟩
  · rw [count_generate_draw_order t n true, hc]
  · rw [count_generate_draw_order t n false, hc]
  · cases n; simp [generate_draw_order, SceneNode.children]

theorem generate_draw_order_spec_witness :
    (generate_draw_order sampleTree).count
      (SceneNode.mk 2 false true [SceneNode.mk 3 true true []], true) = 1 ∧
    (generate_draw_order sampleTree).count
      (SceneNode.mk 2 false true [SceneNode.mk 3 true true []], false) = 1 :=
  ⟨(generate_draw_order_spec sampleTree _ (by decide) (by decide)).1,
   (generate_draw_order_spec sampleTree _ (by decide) (by decide)).2.1⟩

/-- C2: the draw loop of draw_visual run over the generated order makes draw
calls exactly for the nodes on all-visible paths (an invisible node suppresses
its entire subtree, even visible descendants, and every other visible node
with a draw method is drawn); the traversal sequence itself always has two
entries per node regardless of visibility, and with distinct identities each
qualifying node is drawn exactly once. -/
theorem draw_visual_invisibility (t : SceneNode) :
    (draw_loop (generate_draw_order t)).draws = visible_draws t ∧
    (generate_draw_order t).length = 2 * (nodesOf t).length ∧
    ((idsOf t).Nodup → (draw_loop (generate_draw_order t)).draws.Nodup) := by
  have h1 : (draw_loop (generate_draw_order t)).draws = visible_draws t := by
    rw [draw_loop, draw_loop_draws t [] []]
    simp
  refine ⟨h1, length_generate_draw_order t, fun hnd => ?_⟩
  rw [h1]
  have hnd' : ((nodesOf t).map SceneNode.nid).Nodup := hnd
  exact List.Nodup.sublist (visible_draws_sublist t) hnd'

theorem draw_visual_invisibility_witness :
    (draw_loop (generate_draw_order sampleTree)).draws = [0, 1] ∧
    (draw_loop (generate_draw_order sampleTree)).draws.Nodup :=
  ⟨by rw [(draw_visual_invisibility sampleTree).1]; decide,
   (draw_visual_invisibility sampleTree).2.2 (by decide)⟩

/-- C3 (code bug): for a root-only tree the generated draw order is exactly
the root's enter/exit pair and the draw loop would call draw() on the root
precisely when it is visible and has a draw method — but draw_visual itself
never reaches the loop: the dead assignment
`tr = order[2][0].transforms.get_transform()` (canvas.py line 256) indexes
`order[2]` in a 2-entry list and raises IndexError, so the call aborts
(embedded as `none`) instead of completing. -/
theorem draw_visual_root_only :
    generate_draw_order sampleLeaf = [(sampleLeaf, true), (sampleLeaf, false)] ∧
    (draw_loop (generate_draw_order sampleLeaf)).draws = [7] ∧
    (draw_loop (generate_draw_order (.mk 7 false true []))).draws = [] ∧
    (draw_loop (generate_draw_order (.mk 7 true false []))).draws = [] ∧
    draw_visual sampleLeaf = none := by
  exact ⟨by decide, by decide, by decide, by decide, by decide⟩

/-! ## Picking: the pixel decoding of visual_at (canvas.py lines 322-335) -/

/-- The decoding step of SceneCanvas.visual_at:
`id = struct.unpack('<I', struct.pack('<4B', *tuple(img[0, 0])))[0]` packs the
four RGBA bytes of the single read-back pixel and reinterprets them as a
little-endian unsigned 32-bit integer, so the R byte is least significant. -/
def decode_pixel_id (r g b a : Nat) : Nat :=
  r + g * 256 + b * 65536 + a * 16777216

/-- The lookup step of SceneCanvas.visual_at:
`VisualNode._visual_ids.get(id, None)` on the process-wide registry mapping
integer identifiers to visuals, embedded as an association list. -/
def visual_at_lookup (registry : List (Nat × Nat)) (r g b a : Nat) : Option Nat :=
  registry.lookup (decode_pixel_id r g b a)

/-! ## Viewport and framebuffer stacks (canvas.py lines 354-416) -/

/-- A viewport (x, y, w, h), integers relative to the active framebuffer. -/
abbrev Viewport := Int × Int × Int × Int

/-- The normalization at the top of push_viewport: a negative width or height
is added to the corresponding origin coordinate (before the sign flip, so the
original value is added) and then negated. -/
def normalize_viewport : Viewport → Viewport
  | (x, y, w, h) =>
    ((if w < 0 then x + w else x), (if h < 0 then y + h else y),
     (if w < 0 then -w else w), (if h < 0 then -h else h))

/-- A framebuffer as push_fbo observes it: an identity, the shape of its
color buffer (`h, w = fbo.color_buffer.shape[:2]`), and whether
`fbo.activate()` succeeds (it raises otherwise). -/
structure Fbo where
  fid : Nat
  height : Int
  width : Int
  activate_ok : Bool
deriving DecidableEq

/-- The two LIFO stacks owned by SceneCanvas (`_vp_stack` and `_fb_stack`).
Python appends and pops at the end of the list; the embedding keeps the
stack top at the head. -/
structure CanvasStacks where
  vp_stack : List Viewport
  fb_stack : List (Fbo × (Int × Int) × (Int × Int))
deriving DecidableEq

/-- SceneCanvas.push_viewport (canvas.py lines 354-379) acting on the
viewport stack.  The activation oracle `set_viewport_ok` models whether
`self.context.set_viewport(*vp)` raises for a given viewport.  The method
appends the normalized viewport and tries to activate it; on an exception it
pops and re-raises, so the `error` result carries the stack after that
rollback. -/
def push_viewport (set_viewport_ok : Viewport → Bool) (stack : List Viewport)
    (viewport : Viewport) : Except (List Viewport) (List Viewport) :=
  if set_viewport_ok (normalize_viewport viewport) then
    .ok (normalize_viewport viewport :: stack)
  else .error stack

/-- SceneCanvas.push_fbo (canvas.py lines 394-416): appends
(fbo, offset, csize) to the framebuffer stack, then activates the fbo and
pushes the viewport (0, 0, w, h) of its color buffer; any exception inside
the try block pops the framebuffer entry again and re-raises (a failed inner
push_viewport has already rolled back its own append).  The `error` result
carries the stacks after rollback. -/
def push_fbo (set_viewport_ok : Viewport → Bool) (s : CanvasStacks) (fbo : Fbo)
    (offset csize : Int × Int) : Except CanvasStacks CanvasStacks :=
  if fbo.activate_ok then
    match push_viewport set_viewport_ok s.vp_stack (0, 0, fbo.width, fbo.height) with
    | .ok vp' => .ok ⟨vp', (fbo, offset, csize) :: s.fb_stack⟩
    | .error vp' => .error ⟨vp', s.fb_stack⟩
  else .error s

/-! ## CompoundVisual bounds (visual.py lines 483-492) -/

/-- A sub-visual of a CompoundVisual as _compute_bounds observes it: the
`visible` flag and the bounds its bounds method would report on the
requested axis. -/
structure SubVisual where
  visible : Bool
  lo : Int
  hi : Int
deriving DecidableEq

/-- The `for v in self._subvisuals` loop of CompoundVisual._compute_bounds
(visual.py lines 485-491) as written: when `v.visible` the body evaluates
`vb = b.bounds(axis, view)` where `b` is an undefined name (the loop
variable is `v`), so the first visible sub-visual raises NameError, embedded
as `error`; invisible sub-visuals are skipped. -/
def compute_bounds_loop : List SubVisual → Option (Int × Int) →
    Except Unit (Option (Int × Int))
  | [], acc => .ok acc
  | v :: vs, acc => if v.visible then .error () else compute_bounds_loop vs acc

/-- CompoundVisual._compute_bounds (visual.py lines 483-492): starts from
`bounds = None` and runs the loop. -/
def compute_bounds (subvisuals : List SubVisual) : Except Unit (Option (Int × Int)) :=
  compute_bounds_loop subvisuals none

/-! ## Claims C4-C7 -/

/-- C4: the RGBA byte quadruple [4, 3, 2, 1] decodes little-endian to the
identifier 0x01020304 exactly, and a background pixel [0, 0, 0, 0] decodes
to identifier 0, which visual_at resolves to no visual (`none`) whenever
nothing is registered under 0 — a missing registry entry answers `none`
rather than raising. -/
theorem visual_at_decode_spec (registry : List (Nat × Nat))
    (h : registry.lookup 0 = none) :
    decode_pixel_id 4 3 2 1 = 0x01020304 ∧
    visual_at_lookup registry 0 0 0 0 = none := by
  refine ⟨by decide, ?_⟩
  simpa [visual_at_lookup, decode_pixel_id] using h

theorem visual_at_decode_spec_witness :
    decode_pixel_id 4 3 2 1 = 0x01020304 ∧
    visual_at_lookup [(0x01020304, 7)] 0 0 0 0 = none :=
  visual_at_decode_spec [(0x01020304, 7)] (by decide)

/-- C5: if the activation step inside push_viewport or push_fbo raises, the
call re-raises and leaves both stacks exactly as they were before the failed
push (no orphaned entries); on success exactly one new entry sits on top of
the corresponding stack (push_fbo additionally layers the documented
viewport push on the viewport stack). -/
theorem push_rollback_spec (ok : Viewport → Bool) (s : CanvasStacks)
    (v : Viewport) (fbo : Fbo) (offset csize : Int × Int) :
    (∀ e, push_viewport ok s.vp_stack v = .error e → e = s.vp_stack) ∧
    (∀ st, push_viewport ok s.vp_stack v = .ok st →
      st = normalize_viewport v :: s.vp_stack) ∧
    (∀ e, push_fbo ok s fbo offset csize = .error e → e = s) ∧
    (∀ s', push_fbo ok s fbo offset csize = .ok s' →
      s'.fb_stack = (fbo, offset, csize) :: s.fb_stack ∧
      s'.vp_stack = normalize_viewport (0, 0, fbo.width, fbo.height) :: s.vp_stack) := by
  obtain ⟨vps, fbs⟩ := s
  refine ⟨?_, ?_, ?_, ?_⟩ <;> intro x hx
  · unfold push_viewport at hx
    by_cases h1 : ok (normalize_viewport v) = true <;> simp [h1] at hx <;> simp_all
  · unfold push_viewport at hx
    by_cases h1 : ok (normalize_viewport v) = true <;> simp [h1] at hx <;> simp_all
  · unfold push_fbo at hx
    by_cases h2 : fbo.activate_ok = true <;> simp [h2] at hx
    · unfold push_viewport at hx
      by_cases h1 : ok (normalize_viewport (0, 0, fbo.width, fbo.height)) = true <;>
        simp [h1] at hx <;> simp_all
    · simp_all
  · unfold push_fbo at hx
    by_cases h2 : fbo.activate_ok = true <;> simp [h2] at hx
    unfold push_viewport at hx
    by_cases h1 : ok (normalize_viewport (0, 0, fbo.width, fbo.height)) = true <;>
      simp [h1] at hx
    simp [← hx]

/-- Framebuffer whose activation fails, for the concrete rollback check. -/
def fboFail : Fbo := ⟨0, 10, 20, false⟩

theorem push_rollback_spec_witness :
    ((⟨[], []⟩ : CanvasStacks) = ⟨[], []⟩) ∧
    ([((-100 : Int), (0 : Int), (100 : Int), (50 : Int))] =
      normalize_viewport (0, 0, -100, 50) :: []) :=
  ⟨(push_rollback_spec (fun _ => false) ⟨[], []⟩ (0, 0, -100, 50) fboFail
      (0, 0) (0, 0)).2.2.1 ⟨[], []⟩ rfl,
   (push_rollback_spec (fun _ => true) ⟨[], []⟩ (0, 0, -100, 50) fboFail
      (0, 0) (0, 0)).2.1 [(-100, 0, 100, 50)] rfl⟩

/-- C6: push_viewport normalizes a negative width or height by adding it to
the corresponding origin coordinate and negating it, so the viewport pushed
and handed to activation always has non-negative width and height; inputs
with non-negative extents are pushed unchanged, and (0, 0, -100, 50)
becomes (-100, 0, 100, 50). -/
theorem push_viewport_normalize_spec (x y w h : Int) (ok : Viewport → Bool)
    (stack : List Viewport) :
    0 ≤ (normalize_viewport (x, y, w, h)).2.2.1 ∧
    0 ≤ (normalize_viewport (x, y, w, h)).2.2.2 ∧
    (0 ≤ w → 0 ≤ h → normalize_viewport (x, y, w, h) = (x, y, w, h)) ∧
    normalize_viewport (0, 0, -100, 50) = (-100, 0, 100, 50) ∧
    (∀ st, push_viewport ok stack (x, y, w, h) = .ok st →
      st = normalize_viewport (x, y, w, h) :: stack) := by
  refine ⟨?_, ?_, ?_, by decide, ?_⟩
  · simp only [normalize_viewport]
    split <;> omega
  · simp only [normalize_viewport]
    split <;> omega
  · intro hw hh
    simp [normalize_viewport, not_lt.mpr hw, not_lt.mpr hh]
  · intro st hst
    unfold push_viewport at hst
    split at hst <;> simp_all

theorem push_viewport_normalize_spec_witness :
    normalize_viewport (1, 2, 30, 40) = (1, 2, 30, 40) ∧
    ([((-100 : Int), (0 : Int), (100 : Int), (50 : Int))] =
      normalize_viewport (0, 0, -100, 50) :: []) :=
  ⟨(push_viewport_normalize_spec 1 2 30 40 (fun _ => true) []).2.2.1
      (by decide) (by decide),
   (push_viewport_normalize_spec 0 0 (-100) 50 (fun _ => true) []).2.2.2.2
      [(-100, 0, 100, 50)] rfl⟩

/-- C7 (code bug): the compound bounds computation returns the untouched
initial `None` for an all-invisible compound, but raises NameError (the
undefined name `b` in `vb = b.bounds(axis, view)`, visual.py line 487) as
soon as any sub-visual is visible — it never computes the min/max union over
visible sub-visuals that the claim and spec section 4.3 describe. -/
theorem compound_compute_bounds_namerror :
    compute_bounds [⟨false, 0, 1⟩, ⟨false, 2, 3⟩] = .ok none ∧
    compute_bounds [⟨true, 0, 1⟩] = .error () ∧
    compute_bounds [⟨false, 0, 1⟩, ⟨true, 2, 3⟩, ⟨false, 4, 5⟩] = .error () :=
  ⟨rfl, rfl, rfl⟩

/-! ## EllipseVisual configuration errors (ellipse.py) -/

/-- The radius argument of EllipseVisual: a single number or a list/tuple
(numeric values embedded as integers; only the validity and identity of the
stored value matter for the error-handling claims). -/
inductive Radius where
  | single (r : Int)
  | tuple (rs : List Int)
deriving DecidableEq

/-- Symbolic stand-in for the numpy vertex array built by
EllipseVisual._generate_vertices: the array is a function of exactly these
inputs, so recording them captures when the mesh/border data changes. -/
structure VertexData where
  cx : Int
  cy : Int
  xr : Int
  yr : Int
  start_angle : Int
  span_angle : Int
  num_segments : Int
deriving DecidableEq

/-- EllipseVisual._generate_vertices (ellipse.py lines 59-93): first
validates the radius — a list/tuple must have exactly two entries, anything
else raises ValueError — then builds the vertex array;
`np.empty([num_segments + 2, 2])` and `np.linspace(..., num_segments + 1)`
raise for negative sizes, embedded as the trailing check. -/
def generate_vertices (cx cy : Int) (radius : Radius)
    (start_angle span_angle num_segments : Int) : Except Unit VertexData :=
  match radius with
  | .tuple [a, b] =>
    if num_segments + 1 < 0 then .error ()
    else .ok ⟨cx, cy, a, b, start_angle, span_angle, num_segments⟩
  | .tuple _ => .error ()
  | .single r =>
    if num_segments + 1 < 0 then .error ()
    else .ok ⟨cx, cy, r, r, start_angle, span_angle, num_segments⟩

/-- The attributes of an EllipseVisual touched by the radius and
num_segments setters and by _update_vertices; `mesh_data` and `border_data`
record the last vertex data handed to `self._mesh.set_data` and
`self._border.set_data` respectively. -/
structure EllipseState where
  center : Option (Int × Int)
  radius : Radius
  start_angle : Int
  span_angle : Int
  num_segments : Int
  color_blank : Bool
  border_blank : Bool
  mesh_data : Option VertexData
  border_data : Option VertexData
deriving DecidableEq

/-- EllipseVisual._update_vertices (ellipse.py lines 142-169): returns early
when center is None; otherwise generates vertices (propagating any error,
with the object state unchanged from entry) and hands them to the mesh and
border `set_data` calls, each skipped when its color is blank.  The border
data is the same vertex array closed with a repeated first point, so the
same symbolic record. -/
def update_vertices (st : EllipseState) : Except EllipseState EllipseState :=
  match st.center with
  | none => .ok st
  | some c =>
    match generate_vertices c.1 c.2 st.radius st.start_angle st.span_angle
        st.num_segments with
    | .error _ => .error st
    | .ok vd =>
      let st1 := if st.color_blank then st else { st with mesh_data := some vd }
      let st2 := if st1.border_blank then st1 else { st1 with border_data := some vd }
      .ok st2

/-- The EllipseVisual.radius setter (ellipse.py lines 101-104): it stores
the new radius first (`self._radius = radius`) and only then calls
_update_vertices. -/
def radius_set (st : EllipseState) (radius : Radius) :
    Except EllipseState EllipseState :=
  update_vertices { st with radius := radius }

/-- The EllipseVisual.num_segments setter (ellipse.py lines 134-140): it
raises ValueError for `num_segments < 1` before assigning anything, then
stores the value and calls _update_vertices. -/
def num_segments_set (st : EllipseState) (num_segments : Int) :
    Except EllipseState EllipseState :=
  if num_segments < 1 then .error st
  else update_vertices { st with num_segments := num_segments }

/-- The EllipseVisual constructor (ellipse.py lines 43-57): it assigns
`_center`, `_radius`, `_start_angle`, `_span_angle` and `_num_segments`
first, runs `PolygonVisual.__init__` (external; it records the blank-color
flags and creates empty mesh and border sub-visuals) and the mesh-mode
assignment, and only then calls _update_vertices — so the constructor itself
performs no validation at all: any error comes from vertex generation, runs
only when a center was given, and reaches the caller with every attribute
already assigned on the half-constructed object (the `error` payload). -/
def ellipse_init (center : Option (Int × Int)) (radius : Radius)
    (start_angle span_angle num_segments : Int) (color_blank border_blank : Bool) :
    Except EllipseState EllipseState :=
  update_vertices ⟨center, radius, start_angle, span_angle, num_segments,
    color_blank, border_blank, none, none⟩

theorem generate_vertices_bad_tuple (cx cy start span nseg : Int)
    (rs : List Int) (hrs : rs.length ≠ 2) :
    generate_vertices cx cy (.tuple rs) start span nseg = .error () := by
  match rs with
  | [] => rfl
  | [a] => rfl
  | [a, b] => exact absurd rfl hrs
  | a :: b :: c :: rest => rfl

/-- A centered ellipse with a valid radius, default segment count and
non-blank colors, for the concrete checks. -/
def ellipse0 : EllipseState :=
  ⟨some (0, 0), .single 1, 0, 360, 100, false, false, none, none⟩

/-! ## Mouse event dispatch (canvas.py lines 296-320) -/

inductive MouseEvType where
  | press
  | move
  | release
  | wheel
deriving DecidableEq

/-- The observable outcome of one SceneCanvas._process_mouse_event call: the
mouse-capture latch (`self._mouse_handler`) after the call, the visual
carried by the SceneMouseEvent constructed for routing (if one was built),
the visuals whose scene-event handlers were actually invoked, and the final
value of the original event's `handled` flag. -/
structure MouseDispatch where
  mouse_handler : Option Nat
  scene_event_visual : Option Nat
  dispatched : List Nat
  event_handled : Bool
deriving DecidableEq

/-- SceneCanvas._process_mouse_event (canvas.py lines 296-320).  `pick`
models what `self.visual_at(event.pos)` returns at the current pointer
position, `handler` is `self._mouse_handler` on entry and `handled0` the
original event's `handled` flag.  With no latch, only a press picks and
latches a visual (other event types set picked to None and return early);
with a latch, the latched visual is used regardless of `pick`, and a release
clears the latch.  The line that would deliver the scene event,
`getattr(picked.events, event.type)(scene_event)` (line 316), is commented
out in the source, so no handler is ever invoked and the freshly constructed
SceneMouseEvent still reports unhandled (a new vispy event starts with
`handled` False) when `event.handled = scene_event.handled` runs. -/
def process_mouse_event (pick : Option Nat) (handler : Option Nat)
    (etype : MouseEvType) (handled0 : Bool) : MouseDispatch :=
  match handler with
  | none =>
    match etype with
    | .press =>
      match pick with
      | none => ⟨none, none, [], handled0⟩
      | some p => ⟨some p, some p, [], false⟩
    | _ => ⟨none, none, [], handled0⟩
  | some h =>
    let handler' : Option Nat := if etype = .release then none else some h
    ⟨handler', some h, [], false⟩

/-! ## Visual.bounds shadowing (visual.py lines 272-276 and 339-341) -/

/-- The method names assigned in the class body of `Visual`, in textual
order (leading underscores of the Python names dropped). -/
inductive MethodName where
  | init
  | set_gl_state
  | update_gl_state
  | bounds
  | compute_bounds
  | prepare_draw
  | prepare_transforms
  | shared_program
  | view_program
  | draw_mode
  | index_buffer
  | draw
  | get_hook
  | attach
  | detach
deriving DecidableEq

/-- The two implementations bound to the name `bounds` in the class body of
`Visual`: the earlier axis-taking definition (visual.py lines 272-276) that
reads and fills the per-axis cache of the VisualShare, and the later
zero-argument definition (visual.py lines 339-341) that returns None
unconditionally; every other method is recorded as `otherMethod`. -/
inductive BoundsImpl where
  | axisCached
  | alwaysNone
  | otherMethod
deriving DecidableEq

/-- The class body of `Visual` (visual.py lines 224-393) as the ordered
sequence of its method definitions.  Executing a Python class body assigns
each `def` into the class dict in textual order, so a later definition of a
name overwrites an earlier one. -/
def visualClassBody : List (MethodName × BoundsImpl) :=
  [(.init, .otherMethod),
   (.set_gl_state, .otherMethod),
   (.update_gl_state, .otherMethod),
   (.bounds, .axisCached),
   (.compute_bounds, .otherMethod),
   (.prepare_draw, .otherMethod),
   (.prepare_transforms, .otherMethod),
   (.shared_program, .otherMethod),
   (.view_program, .otherMethod),
   (.draw_mode, .otherMethod),
   (.index_buffer, .otherMethod),
   (.draw, .otherMethod),
   (.bounds, .alwaysNone),
   (.get_hook, .otherMethod),
   (.attach, .otherMethod),
   (.detach, .otherMethod)]

/-- Python class-dict semantics: a name resolves to the value of its last
assignment in the class body. -/
def classAttr (body : List (MethodName × BoundsImpl)) (name : MethodName) :
    Option BoundsImpl :=
  body.reverse.lookup name

/-- The observable behavior of calling a `bounds` implementation on the
per-axis bounds cache of the VisualShare (visual.py line 109): the earlier
definition reads the cache and fills a miss from _compute_bounds; the later
definition ignores the state entirely and returns None; the result is the
returned value together with the cache afterwards. -/
def runBounds (impl : BoundsImpl) (axis : Nat) (compute : Nat → Int × Int)
    (cache : List (Nat × (Int × Int))) :
    Option (Int × Int) × List (Nat × (Int × Int)) :=
  match impl with
  | .axisCached =>
    match cache.lookup axis with
    | some b => (some b, cache)
    | none => (some (compute axis), (axis, compute axis) :: cache)
  | .alwaysNone => (none, cache)
  | .otherMethod => (none, cache)

/-! ## Claims C8-C10 -/

/-- C8 counterexample: the fail-fast-before-mutation claim is false at
concrete inputs for each call site it names.  The radius setter on a
centered ellipse raises for a 3-element tuple, but the stored radius has
already been overwritten when the error leaves.  The constructor with a
center and the same invalid radius raises only after every attribute of the
half-constructed visual has been assigned (the error payload carries the
invalid radius).  The constructor also accepts `num_segments = 0` without
any error and writes vertex data for it, although 0 is below the allowed
minimum (the last conjunct shows the num_segments setter rejects 0), and
with no center it accepts the invalid 3-element radius silently. -/
theorem ellipse_fail_fast_counterexample :
    (radius_set ellipse0 (.tuple [1, 2, 3]) =
        .error { ellipse0 with radius := .tuple [1, 2, 3] } ∧
      Radius.tuple [1, 2, 3] ≠ ellipse0.radius) ∧
    ellipse_init (some (0, 0)) (.tuple [1, 2, 3]) 0 360 100 false false =
      .error ⟨some (0, 0), .tuple [1, 2, 3], 0, 360, 100, false, false,
        none, none⟩ ∧
    ellipse_init (some (0, 0)) (.single 1) 0 360 0 false false =
      .ok ⟨some (0, 0), .single 1, 0, 360, 0, false, false,
        some ⟨0, 0, 1, 1, 0, 360, 0⟩, some ⟨0, 0, 1, 1, 0, 360, 0⟩⟩ ∧
    ellipse_init none (.tuple [1, 2, 3]) 0 360 100 false false =
      .ok ⟨none, .tuple [1, 2, 3], 0, 360, 100, false, false, none, none⟩ ∧
    num_segments_set ellipse0 0 = .error ellipse0 :=
  ⟨⟨rfl, by decide⟩, rfl, rfl, rfl, rfl⟩

/-- C8 amended: only the num_segments setter fails fast — a count below 1
raises ValueError before any mutation, leaving the state exactly unchanged.
The radius setter and the constructor assign the new attribute values first
and validate only inside vertex regeneration, which runs only when a center
is set: with a center, a radius given as a list/tuple of length other than 2
raises the descriptive ValueError of _generate_vertices before any vertex
data is written, so num_segments and the mesh/border data are unchanged on
error, but the stored radius (for the constructor, every constructor
argument) already holds the invalid value; with no center, the radius setter
and the constructor store invalid values silently and raise nothing; and the
constructor never validates num_segments, completing without error for any
count from -1 upward, including counts below the setter's minimum of 1. -/
theorem ellipse_setter_error_spec (st : EllipseState) (rs : List Int) (n : Int)
    (hrs : rs.length ≠ 2) (hn : n < 1) :
    (num_segments_set st n = .error st) ∧
    (∀ c, st.center = some c →
      radius_set st (.tuple rs) = .error { st with radius := .tuple rs }) ∧
    (st.center = none →
      radius_set st (.tuple rs) = .ok { st with radius := .tuple rs }) ∧
    (∀ (c : Int × Int) (sa sp ns : Int) (cb bb : Bool),
      ellipse_init (some c) (.tuple rs) sa sp ns cb bb =
        .error ⟨some c, .tuple rs, sa, sp, ns, cb, bb, none, none⟩) ∧
    (∀ (sa sp ns : Int) (cb bb : Bool),
      ellipse_init none (.tuple rs) sa sp ns cb bb =
        .ok ⟨none, .tuple rs, sa, sp, ns, cb, bb, none, none⟩) ∧
    (∀ (c : Int × Int) (r sa sp ns : Int), -1 ≤ ns →
      ellipse_init (some c) (.single r) sa sp ns false false =
        .ok ⟨some c, .single r, sa, sp, ns, false, false,
          some ⟨c.1, c.2, r, r, sa, sp, ns⟩, some ⟨c.1, c.2, r, r, sa, sp, ns⟩⟩) := by
  refine ⟨?_, ?_, ?_, ?_, ?_, ?_⟩
  · unfold num_segments_set
    simp [hn]
  · intro c hc
    unfold radius_set update_vertices
    simp only [hc, generate_vertices_bad_tuple c.1 c.2 st.start_angle
      st.span_angle st.num_segments rs hrs]
  · intro hc
    unfold radius_set update_vertices
    simp [hc]
  · intro c sa sp ns cb bb
    unfold ellipse_init update_vertices
    simp only [generate_vertices_bad_tuple c.1 c.2 sa sp ns rs hrs]
  · intro sa sp ns cb bb
    rfl
  · intro c r sa sp ns hns
    unfold ellipse_init update_vertices generate_vertices
    simp [show ¬(ns + 1 < 0) by omega]

theorem ellipse_setter_error_spec_witness :
    num_segments_set ellipse0 0 = .error ellipse0 ∧
    radius_set { ellipse0 with center := none } (.tuple [1, 2, 3]) =
      .ok { ellipse0 with center := none, radius := .tuple [1, 2, 3] } ∧
    ellipse_init (some (0, 0)) (.tuple [1, 2, 3]) 10 20 30 true false =
      .error ⟨some (0, 0), .tuple [1, 2, 3], 10, 20, 30, true, false,
        none, none⟩ ∧
    ellipse_init (some (2, 3)) (.single 5) 0 360 0 false false =
      .ok ⟨some (2, 3), .single 5, 0, 360, 0, false, false,
        some ⟨2, 3, 5, 5, 0, 360, 0⟩, some ⟨2, 3, 5, 5, 0, 360, 0⟩⟩ :=
  ⟨(ellipse_setter_error_spec ellipse0 [1, 2, 3] 0 (by decide) (by decide)).1,
   (ellipse_setter_error_spec { ellipse0 with center := none } [1, 2, 3] 0
      (by decide) (by decide)).2.2.1 rfl,
   (ellipse_setter_error_spec ellipse0 [1, 2, 3] 0 (by decide)
      (by decide)).2.2.2.1 (0, 0) 10 20 30 true false,
   (ellipse_setter_error_spec ellipse0 [1, 2, 3] 0 (by decide)
      (by decide)).2.2.2.2.2 (2, 3) 5 0 360 0 (by decide)⟩

/-- C9 (code bug): a press latches the picked visual, and while latched a
move or release is routed toward the latched visual (the constructed scene
event carries the latched visual 7 even when the pick under the pointer is
9, and release clears the latch) — but the dispatch call
`getattr(picked.events, event.type)(scene_event)` (canvas.py line 316) is
commented out, so for every input the scene event is never delivered: no
handler runs and the original event's handled flag is set to False. -/
theorem process_mouse_event_no_dispatch :
    process_mouse_event (some 7) none .press false = ⟨some 7, some 7, [], false⟩ ∧
    process_mouse_event (some 9) (some 7) .move false = ⟨some 7, some 7, [], false⟩ ∧
    process_mouse_event (some 9) (some 7) .release false = ⟨none, some 7, [], false⟩ ∧
    (∀ (pick handler : Option Nat) (etype : MouseEvType) (h0 : Bool),
      (process_mouse_event pick handler etype h0).dispatched = []) ∧
    (∀ (pick : Option Nat) (h : Nat) (etype : MouseEvType) (h0 : Bool),
      (process_mouse_event pick (some h) etype h0).event_handled = false) := by
  refine ⟨rfl, rfl, rfl, ?_, ?_⟩
  · intro pick handler etype h0
    unfold process_mouse_event
    rcases handler with _ | h <;> rcases etype <;> rcases pick with _ | p <;> simp
  · intro pick h etype h0
    unfold process_mouse_event
    rcases etype <;> simp

/-- C10: in the class body of `Visual` the zero-argument `bounds` returning
None is defined after the axis-taking one, so the publicly reachable
`Visual.bounds` is the later definition; calling it returns None and neither
reads nor writes the per-axis bounds cache of the VisualShare, whatever the
cache holds. -/
theorem visual_bounds_shadowed (axis : Nat) (compute : Nat → Int × Int)
    (cache : List (Nat × (Int × Int))) :
    classAttr visualClassBody .bounds = some .alwaysNone ∧
    runBounds .alwaysNone axis compute cache = (none, cache) ∧
    classAttr [(.bounds, .axisCached)] .bounds = some .axisCached :=
  ⟨rfl, rfl, rfl⟩

end Vispy
